import Mathlib

/-!
Verification of the drizzle-op-sqlite-sync adapter and its demo harness.

The adapter (src/src/sqlite/*.ts) maps the ORM's session/transaction
lifecycle onto a native synchronous SQLite driver.  We embed the relevant
functions shallowly: the underlying connection is modelled by a state
carrying a trace of events (queries submitted to the driver — serialized
text plus bound parameters — and a marker for each entry into a user
callback) and a freshness counter for driver-allocated `Error` objects;
the driver's execute is fallible, since drizzle's `sql` tagged template
parameterizes interpolated strings and the resulting `begin?` query is
not preparable; a user transaction callback is modelled by the statements
it would run while active together with its outcome (returned value or
thrown error); and errors are a concrete type whose equality models JS
object identity of the thrown value.
-/

namespace DrizzleOpSqlite

/-- A JavaScript value thrown by a callback or by the adapter.
`jsError msg` is a JS `Error` carrying `msg` as its `.message`;
`opaque_ i` is any other thrown value, identified by `i` so that
structural equality models object identity; `nativeError stmt id` is the
fresh `Error` the native driver constructs when preparing or running the
statement text `stmt` fails, with `id` distinguishing the object
allocated at each throw (two throws never yield the same object). -/
inductive Err where
  | jsError (msg : String)
  | opaque_ (id : Nat)
  | nativeError (stmt : String) (id : Nat)
  deriving DecidableEq, Repr

/-- `SQLiteTransactionConfig.behavior` from drizzle-orm: the union type
`'deferred' | 'immediate' | 'exclusive'`. -/
inductive TransactionBehavior where
  | deferred
  | immediate
  | exclusive
  deriving DecidableEq, Repr

/-- The string value of a `behavior` literal, as interpolated into the
`begin` statement template. -/
def TransactionBehavior.toStr : TransactionBehavior → String
  | .deferred => "deferred"
  | .immediate => "immediate"
  | .exclusive => "exclusive"

/-- `accessMode` from `OPSQLiteTransactionConfig` in
src/src/sqlite/OPSQLiteBaseSession.ts: `'read only' | 'read write'`. -/
inductive AccessMode where
  | readOnly
  | readWrite
  deriving DecidableEq, Repr

/-- `OPSQLiteTransactionConfig` (src/src/sqlite/OPSQLiteBaseSession.ts,
lines 21-23): `SQLiteTransactionConfig & { accessMode?: ... }`.  Optional
fields become `Option`s. -/
structure OPSQLiteTransactionConfig where
  behavior : Option TransactionBehavior := none
  accessMode : Option AccessMode := none
  deriving DecidableEq, Repr

/-- One observable event on the underlying native connection:
`run text params` is a query — serialized statement text with its bound
parameter values — submitted to the native driver (whether or not the
driver manages to prepare it), and `callbackInvoked` marks an entry into
the user transaction callback. -/
inductive SessionEvent where
  | run (text : String) (params : List String)
  | callbackInvoked
  deriving DecidableEq, Repr

/-- A trace of events on the underlying connection, in execution order. -/
abbrev Trace := List SessionEvent

/-- A serialized drizzle query as handed to the native driver: the SQL
text with `?` placeholders, and the bound parameter values. -/
structure SQLQuery where
  text : String
  params : List String
  deriving DecidableEq, Repr

/-- The connection-side state: the trace of submitted queries and
callback entries, and a freshness counter modelling the allocation of new
JS `Error` objects by the driver (each throw constructs a new object). -/
structure DBState where
  trace : Trace
  nextErr : Nat
  deriving DecidableEq, Repr

/-- The behaviour of a user transaction callback once invoked: the
statements it runs through the transaction while active, and its outcome
(`ok v` if it returns `v`, `error e` if it throws `e`). -/
structure UserCallback (α : Type) where
  body : List String
  outcome : Except Err α
  deriving Repr

/-- Invoking a user callback: records the entry marker and the callback's
own statements on the trace and yields its outcome. -/
def invokeCallback {α : Type} (f : UserCallback α) (st : DBState) :
    Except Err α × DBState :=
  (f.outcome,
   ⟨st.trace ++ SessionEvent.callbackInvoked ::
      f.body.map (fun t => SessionEvent.run t []),
    st.nextErr⟩)

/-- A logger held by a session.  `user i` is a caller-supplied `Logger`
object, identified by `i` so that equality models object identity. -/
inductive Logger where
  | defaultLogger
  | noopLogger
  | user (id : Nat)
  deriving DecidableEq, Repr

/-- Model of an `OPSQLiteBaseSession` instance
(src/src/sqlite/OPSQLiteBaseSession.ts): the field its own logic
reads is the logger chosen in its constructor. -/
structure OPSQLiteBaseSessionM where
  logger : Logger
  deriving DecidableEq, Repr

/-- Model of an `OPSQLiteTransaction` object: per the ORM's extension
contract it forwards `transaction` calls to the session it was
constructed with (here always a fresh `OPSQLiteBaseSession`). -/
structure OPSQLiteTransactionM where
  session : OPSQLiteBaseSessionM
  deriving DecidableEq, Repr

/-- `OPSQLiteBaseSession.transaction`
(src/src/sqlite/OPSQLiteBaseSession.ts, lines 68-73): unconditionally
`throw new Error('Nested transactions are not supported')`; the callback
argument is never used and nothing is executed on the connection. -/
def OPSQLiteBaseSessionM.transaction {α : Type} (_s : OPSQLiteBaseSessionM)
    (_f : OPSQLiteTransactionM → UserCallback α)
    (_config : OPSQLiteTransactionConfig) (tr : Trace) :
    Except Err α × Trace :=
  (Except.error (Err.jsError "Nested transactions are not supported"), tr)

/-- `tx.transaction(...)` on a transaction object delegates to the
session the object was constructed with (the ORM base class forwards to
`this.session.transaction`). -/
def OPSQLiteTransactionM.transaction {α : Type} (tx : OPSQLiteTransactionM)
    (f : OPSQLiteTransactionM → UserCallback α)
    (config : OPSQLiteTransactionConfig) (tr : Trace) :
    Except Err α × Trace :=
  tx.session.transaction f config tr

/-- Model of an `OPSQLiteSession` instance
(src/src/sqlite/OPSQLiteSession.ts). -/
structure OPSQLiteSessionM where
  logger : Logger
  deriving DecidableEq, Repr

/-- The transaction object built inside `OPSQLiteSession.transaction`
(src/src/sqlite/OPSQLiteSession.ts, lines 35-40): a fresh
`OPSQLiteTransaction` over a fresh `OPSQLiteBaseSession` on the same
client, dialect, schema and options. -/
def OPSQLiteSessionM.txOf (s : OPSQLiteSessionM) : OPSQLiteTransactionM :=
  ⟨⟨s.logger⟩⟩

/-- The parameter value of the interpolation
`config?.behavior ? ' ' + config.behavior : ''`
(src/src/sqlite/OPSQLiteSession.ts, line 42), evaluated before binding:
a space plus the behavior literal when present (every literal is a
non-empty, hence truthy, string), else the empty string. -/
def beginParam (config : OPSQLiteTransactionConfig) : String :=
  match config.behavior with
  | some b => " " ++ b.toStr
  | none => ""

/-- The query serialized from
``sql`begin${config?.behavior ? ' ' + config.behavior : ''}` ``
(src/src/sqlite/OPSQLiteSession.ts, line 42).  The drizzle `sql` tagged
template binds every interpolated plain value as a parameter — it is not
`sql.raw` — so the serialized text is `begin?` with the evaluated suffix
as its single bound parameter, for every config. -/
def beginQuery (config : OPSQLiteTransactionConfig) : SQLQuery :=
  ⟨"begin?", [beginParam config]⟩

/-- The query serialized from ``sql`commit` ``
(src/src/sqlite/OPSQLiteSession.ts, line 45): no interpolation, no
parameters. -/
def sqlCommit : SQLQuery := ⟨"commit", []⟩

/-- The query serialized from ``sql`rollback` ``
(src/src/sqlite/OPSQLiteSession.ts, line 47): no interpolation, no
parameters. -/
def sqlRollback : SQLQuery := ⟨"rollback", []⟩

/-- Modelled from the spec: the native driver's synchronous execute
consumed by the session's `run` (spec section 6), on the statements the
transaction wrapper submits.  SQLite's grammar admits no bound-parameter
token after `BEGIN` — only the literal modifiers DEFERRED, IMMEDIATE,
EXCLUSIVE — so the serialized query `begin?` cannot be prepared and the
driver throws a freshly allocated `Error`; the parameterless `commit` and
`rollback` texts prepare and run fine.  Every submitted query is recorded
on the trace, prepared successfully or not. -/
def nativeRun (q : SQLQuery) (st : DBState) : Except Err Unit × DBState :=
  let trace' := st.trace ++ [SessionEvent.run q.text q.params]
  if q.text = "begin?" then
    (Except.error (Err.nativeError q.text st.nextErr), ⟨trace', st.nextErr + 1⟩)
  else
    (Except.ok (), ⟨trace', st.nextErr⟩)

/-- `OPSQLiteSession.transaction`
(src/src/sqlite/OPSQLiteSession.ts, lines 29-52): build the transaction
object, run the serialized begin query, and only then enter the `try`
block — invoke the user callback, on normal return run `commit` and
return the value, on a throw run `rollback` and rethrow the same error
(a throw from the rollback itself, or from `commit` inside `try`,
propagates per JS semantics).  A throw from the begin statement happens
before the `try` block and propagates directly. -/
def OPSQLiteSessionM.transaction {α : Type} (s : OPSQLiteSessionM)
    (f : OPSQLiteTransactionM → UserCallback α)
    (config : OPSQLiteTransactionConfig) (st : DBState) :
    Except Err α × DBState :=
  let tx := s.txOf
  match nativeRun (beginQuery config) st with
  | (Except.error e, st1) => (Except.error e, st1)
  | (Except.ok _, st1) =>
    match invokeCallback (f tx) st1 with
    | (Except.ok v, st2) =>
      (match nativeRun sqlCommit st2 with
       | (Except.error e2, st3) =>
         (match nativeRun sqlRollback st3 with
          | (Except.error e3, st4) => (Except.error e3, st4)
          | (Except.ok _, st4) => (Except.error e2, st4))
       | (Except.ok _, st3) => (Except.ok v, st3))
    | (Except.error e, st2) =>
      (match nativeRun sqlRollback st2 with
       | (Except.error e2, st3) => (Except.error e2, st3)
       | (Except.ok _, st3) => (Except.error e, st3))

/-! Section: Logger selection (src/src/sqlite/OPSQLiteDatabase.ts and
OPSQLiteBaseSession.ts) -/

/-- The possible values of `config.logger` in `DrizzleConfig`:
a boolean, a caller-supplied `Logger` object, or absent. -/
inductive DrizzleLoggerOption where
  | boolean (b : Bool)
  | logger (id : Nat)
  | undefined
  deriving DecidableEq, Repr

/-- The logger computed by the `drizzle` factory
(src/src/sqlite/OPSQLiteDatabase.ts, lines 28-33):
`if (config.logger === true) logger = new DefaultLogger();
else if (config.logger !== false) logger = config.logger;`
leaving `logger` undefined when `config.logger` is `false`. -/
def drizzleSelectLogger : DrizzleLoggerOption → Option Logger
  | .boolean true => some Logger.defaultLogger
  | .boolean false => none
  | .logger id => some (Logger.user id)
  | .undefined => none

/-- The logger installed by the `OPSQLiteBaseSession` constructor
(src/src/sqlite/OPSQLiteBaseSession.ts, line 47):
`this.logger = options.logger ?? new NoopLogger()`. -/
def sessionLoggerOf (optionsLogger : Option Logger) : Logger :=
  optionsLogger.getD Logger.noopLogger

/-! Section: Demo harness: locking test (src/demo/src/SimultaneousWritesScreen.tsx) -/

/-- JS `s.includes(pat)`: `pat` occurs as a contiguous substring of `s`,
i.e. some offset of `s` starts with `pat`. -/
def strIncludes (s pat : String) : Bool :=
  (List.range (s.toList.length + 1)).any
    (fun i => (s.toList.drop i).take pat.toList.length == pat.toList)

/-- JS `s.toLowerCase()` (character-wise lowering). -/
def jsToLower (s : String) : String :=
  String.mk (s.toList.map Char.toLower)

/-- A `TestResult` as returned by the demo harness tests. -/
structure TestResult where
  name : String
  passed : Bool
  error : Option String
  deriving DecidableEq, Repr

/-- `lockDetected` in `runLockingTest`
(src/demo/src/SimultaneousWritesScreen.tsx, line 90):
`!!lockError && lockError.toLowerCase().includes('lock')`, where
`lockError` is the caught error's message (or `undefined` when no error
was caught during the managed connection's write). -/
def lockDetectedOf (lockError : Option String) : Bool :=
  match lockError with
  | none => false
  | some s => (s != "") && strIncludes (jsToLower s) "lock"

/-- The `TestResult` built by `runLockingTest`
(src/demo/src/SimultaneousWritesScreen.tsx, lines 96-104). -/
def lockingTestResult (lockError : Option String) : TestResult :=
  let lockDetected := lockDetectedOf lockError
  { name := "Separate write connection blocks PowerSync write"
    passed := lockDetected
    error := if lockDetected then none
      else some ("Expected lock error when separate connection holds transaction. Got: "
        ++ (lockError.getD "no error")) }

/-! Section: Demo harness: hooked-connection simultaneous writes -/

/-- A row of the demo's `lists` table (`id` is the primary key). -/
structure ListsRow where
  id : String
  name : Option String
  owner_id : Option String
  deriving DecidableEq, Repr

/-- `POWER_SYNC_WRITE_COUNT` (src/demo/src/SimultaneousWritesScreen.tsx,
line 50). -/
def POWER_SYNC_WRITE_COUNT : Nat := 100

/-- `hasDrizzleItem` in `runHookedConnectionSimultaneousWrites`
(src/demo/src/SimultaneousWritesScreen.tsx, lines 140-142). -/
def hasDrizzleItem (queryResults : List ListsRow) (drizzleId : String) : Bool :=
  queryResults.any (fun r => r.id == drizzleId && r.name == some "Drizzle List (hooked)")

/-- `powersyncItemsCount` in `runHookedConnectionSimultaneousWrites`
(src/demo/src/SimultaneousWritesScreen.tsx, lines 143-145). -/
def powersyncItemsCount (queryResults : List ListsRow) (powersyncIds : List String) : Nat :=
  (queryResults.filter (fun r => powersyncIds.contains r.id)).length

/-- `passed` in `runHookedConnectionSimultaneousWrites`
(src/demo/src/SimultaneousWritesScreen.tsx, lines 147-150), as a function
of the final query's rows, the drizzle-inserted id and the list of
PowerSync-inserted ids (whose length is `POWER_SYNC_WRITE_COUNT`). -/
def hookedWritesPassed (queryResults : List ListsRow) (drizzleId : String)
    (powersyncIds : List String) : Bool :=
  (queryResults.length == powersyncIds.length + 1) &&
  hasDrizzleItem queryResults drizzleId &&
  (powersyncItemsCount queryResults powersyncIds == powersyncIds.length)

/-! Section: Demo harness: delete+insert same id (tombstone scenario) -/

/-- Modelled from the spec: the effect on the `lists` table of
`DELETE FROM lists WHERE id = ?` executed by the external engine —
all rows whose `id` equals the parameter are removed.  The engine itself
is outside this repository; the spec's testable property speaks of
delete/insert cycles on one identifier. -/
def deleteWhereId (tbl : List ListsRow) (tid : String) : List ListsRow :=
  tbl.filter (fun r => !(r.id == tid))

/-- Modelled from the spec: the effect on the `lists` table of a
successful single-row INSERT executed by the external engine — the row is
appended to the table. -/
def insertRow (tbl : List ListsRow) (r : ListsRow) : List ListsRow :=
  tbl ++ [r]

/-- Iteration `i` of the loop in `runDeleteAndInsertSameId`
(src/demo/src/SimultaneousWritesScreen.tsx, lines 686-697): a delete of
`testId` when `i` is even, otherwise an insert of
`{ id: testId, name: Reinserted i, owner_id: ownerId }`. -/
def tombstoneOp (testId ownerId : String) (i : Nat) (tbl : List ListsRow) :
    List ListsRow :=
  if i % 2 == 0 then deleteWhereId tbl testId
  else insertRow tbl ⟨testId, some ("Reinserted " ++ toString i), some ownerId⟩

/-- The table state of `runDeleteAndInsertSameId` after the initial
cleanup (`DELETE FROM lists`), the initial insert of
`{ id: testId, name: 'Initial', owner_id: ownerId }`, and the first `k`
loop iterations; the scenario runs the loop for `k = 0, ..., 10`. -/
def tombstoneTable (testId ownerId : String) : Nat → List ListsRow
  | 0 => insertRow [] ⟨testId, some "Initial", some ownerId⟩
  | i + 1 => tombstoneOp testId ownerId i (tombstoneTable testId ownerId i)

/-- The number of rows of the table carrying the given id — the length of
the result of `SELECT * FROM lists WHERE id = ?`. -/
def countWithId (tbl : List ListsRow) (tid : String) : Nat :=
  (tbl.filter (fun r => r.id == tid)).length

/-! Section: Commit-hook batching (src/unnamed/part_000, `System.initPowersyncOpSqlite`) -/

/-- `RowUpdateType` values assigned by the update hook. -/
inductive RowUpdateType where
  | sqliteInsert
  | sqliteDelete
  | sqliteUpdate
  deriving DecidableEq, Repr

/-- An `UpdateNotification` as pushed onto `this.updateBuffer`
(src/unnamed/part_000, lines 198-202). -/
structure UpdateNotification where
  table : String
  opType : RowUpdateType
  rowId : Int
  deriving DecidableEq, Repr

/-- The update-hook callback (src/unnamed/part_000, lines 182-203):
push the notification onto the buffer. -/
def updateHookRun (buffer : List UpdateNotification) (u : UpdateNotification) :
    List UpdateNotification :=
  buffer ++ [u]

/-- One step of the `reduce` that builds `groupedUpdates`
(src/unnamed/part_000, lines 216-224):
`const updateGroup = grouping[table] || (grouping[table] = []);
updateGroup.push(update);` — the JS object is modelled as an association
list in key-insertion order. -/
def groupInsert (grouping : List (String × List UpdateNotification))
    (u : UpdateNotification) : List (String × List UpdateNotification) :=
  if grouping.any (fun p => p.1 == u.table) then
    grouping.map (fun p => if p.1 == u.table then (p.1, p.2 ++ [u]) else p)
  else grouping ++ [(u.table, [u])]

/-- `groupedUpdates = this.updateBuffer.reduce(..., {})`
(src/unnamed/part_000, lines 216-224). -/
def groupedUpdatesOf (buffer : List UpdateNotification) :
    List (String × List UpdateNotification) :=
  buffer.foldl groupInsert []

/-- A `BatchedUpdateNotification`, with `groupedUpdates` as an
association list and `tables` its `Object.keys`. -/
structure BatchedUpdateNotification where
  groupedUpdates : List (String × List UpdateNotification)
  rawUpdates : List UpdateNotification
  tables : List String
  deriving DecidableEq, Repr

/-- The `batchedUpdate` built by the commit hook
(src/unnamed/part_000, lines 226-230). -/
def mkBatchedUpdate (buffer : List UpdateNotification) : BatchedUpdateNotification :=
  { groupedUpdates := groupedUpdatesOf buffer
    rawUpdates := buffer
    tables := (groupedUpdatesOf buffer).map (fun p => p.1) }

/-- The commit-hook callback (src/unnamed/part_000, lines 206-240):
`if (!this.updateBuffer.length) return;` else build the batched
notification, clear the buffer, and hand the notification to the
listeners (`adapter.iterateListeners(l => l.tablesUpdated?.(batchedUpdate))`
delivers the one batch; `none` means no listener is notified). -/
def commitHookRun (buffer : List UpdateNotification) :
    Option BatchedUpdateNotification × List UpdateNotification :=
  if buffer.length == 0 then (none, buffer)
  else (some (mkBatchedUpdate buffer), [])

/-- First occurrences of the elements of `l`, in order — the specification
of JS `Object.keys` of an object populated by first-come key insertion. -/
def firstOccurrences (l : List String) : List String :=
  l.foldl (fun acc t => if t ∈ acc then acc else acc ++ [t]) []

/-! Theorems for the claims. -/

/-- C1: contrary to the claim, the wrapper can never execute `begin`,
invoke the callback, or commit.  Line 42's tagged template binds the
behavior suffix as a parameter (drizzle's `sql` is not `sql.raw`), so for
every session, callback, config and state the call submits exactly one
query — text `begin?` with the behavior suffix as its lone bound
parameter — which the driver cannot prepare; the call throws the driver's
fresh prepare error before the `try` block, never enters the callback
(the `callbackInvoked` count is unchanged) and never submits `commit`. -/
theorem OPSQLiteSession_transaction_begin_unpreparable {α : Type}
    (s : OPSQLiteSessionM) (f : OPSQLiteTransactionM → UserCallback α)
    (config : OPSQLiteTransactionConfig) (st : DBState) :
    s.transaction f config st =
      (Except.error (Err.nativeError "begin?" st.nextErr),
        ⟨st.trace ++ [SessionEvent.run "begin?" [beginParam config]],
          st.nextErr + 1⟩) ∧
    (beginQuery config).text = "begin?" ∧
    ((s.transaction f config st).2.trace.count SessionEvent.callbackInvoked =
      st.trace.count SessionEvent.callbackInvoked) := by
  refine ⟨rfl, rfl, ?_⟩
  show (st.trace ++ [SessionEvent.run "begin?" [beginParam config]]).count
      SessionEvent.callbackInvoked = st.trace.count SessionEvent.callbackInvoked
  simp [List.count_append]

/-- C2: contrary to the claim, the catch path is unreachable.  The begin
statement serializes to the unpreparable `begin?` and throws before the
`try` block, so even for a callback that would throw `e` the callback is
never invoked, the only submitted query is `begin?` (no `rollback` and no
`commit` follow), and the surfaced error is the driver's fresh begin
failure, not `e`. -/
theorem OPSQLiteSession_transaction_rollback_unreachable {α : Type}
    (s : OPSQLiteSessionM) (f : OPSQLiteTransactionM → UserCallback α)
    (config : OPSQLiteTransactionConfig) (e : Err) (st : DBState)
    (_h : (f s.txOf).outcome = Except.error e) :
    (s.transaction f config st).1 =
      Except.error (Err.nativeError "begin?" st.nextErr) ∧
    (s.transaction f config st).2.trace =
      st.trace ++ [SessionEvent.run "begin?" [beginParam config]] ∧
    ((s.transaction f config st).2.trace.count SessionEvent.callbackInvoked =
      st.trace.count SessionEvent.callbackInvoked) := by
  refine ⟨rfl, rfl, ?_⟩
  show (st.trace ++ [SessionEvent.run "begin?" [beginParam config]]).count
      SessionEvent.callbackInvoked = st.trace.count SessionEvent.callbackInvoked
  simp [List.count_append]

/-- Witness for C2 at a concrete session, throwing callback and config. -/
theorem OPSQLiteSession_transaction_rollback_unreachable_witness :
    ((fun _ : OPSQLiteTransactionM =>
        UserCallback.mk ["update lists"] (Except.error (α := Nat) (Err.opaque_ 5)))
          (OPSQLiteSessionM.txOf ⟨Logger.noopLogger⟩)).outcome =
      Except.error (Err.opaque_ 5) ∧
    ((OPSQLiteSessionM.transaction ⟨Logger.noopLogger⟩
        (fun _ => UserCallback.mk ["update lists"]
          (Except.error (α := Nat) (Err.opaque_ 5)))
        ⟨none, none⟩ ⟨[], 0⟩).1 =
      Except.error (Err.nativeError "begin?" 0) ∧
    (OPSQLiteSessionM.transaction ⟨Logger.noopLogger⟩
        (fun _ => UserCallback.mk ["update lists"]
          (Except.error (α := Nat) (Err.opaque_ 5)))
        ⟨none, none⟩ ⟨[], 0⟩).2.trace =
      [] ++ [SessionEvent.run "begin?" [beginParam ⟨none, none⟩]] ∧
    ((OPSQLiteSessionM.transaction ⟨Logger.noopLogger⟩
        (fun _ => UserCallback.mk ["update lists"]
          (Except.error (α := Nat) (Err.opaque_ 5)))
        ⟨none, none⟩ ⟨[], 0⟩).2.trace.count SessionEvent.callbackInvoked =
      ([] : Trace).count SessionEvent.callbackInvoked)) :=
  ⟨rfl, OPSQLiteSession_transaction_rollback_unreachable ⟨Logger.noopLogger⟩
    (fun _ => UserCallback.mk ["update lists"]
      (Except.error (α := Nat) (Err.opaque_ 5)))
    ⟨none, none⟩ (Err.opaque_ 5) ⟨[], 0⟩ rfl⟩

/-- C3: on the transaction object built by `OPSQLiteSession.transaction`,
every `tx.transaction` call throws an `Error` with message
'Nested transactions are not supported'; the trace is unchanged, so in
particular the nested callback is never invoked (no `callbackInvoked`
event is added). -/
theorem nested_transaction_rejected {α : Type} (s : OPSQLiteSessionM)
    (g : OPSQLiteTransactionM → UserCallback α) (config : OPSQLiteTransactionConfig)
    (tr : Trace) :
    (s.txOf).transaction g config tr =
      (Except.error (Err.jsError "Nested transactions are not supported"), tr) ∧
    ((s.txOf).transaction g config tr).2.count SessionEvent.callbackInvoked =
      tr.count SessionEvent.callbackInvoked :=
  ⟨rfl, rfl⟩

/-- C8 counterexample: the claim's "same result (or the same error)"
fails at concrete inputs.  At two configs differing only in `accessMode`,
any two actual invocations of the wrapper are successive on the one
connection, and each one throws a freshly allocated `Error` at the
unpreparable `begin?` statement: the first call from the initial state
throws the object allocated as 0, the second call (continuing from the
first call's state) throws the object allocated as 1, and these are not
the same error object, so the two calls do not produce the same result. -/
theorem accessMode_same_error_counterexample :
    (OPSQLiteSessionM.transaction ⟨Logger.noopLogger⟩
        (fun _ => UserCallback.mk [] (Except.ok (0 : Nat)))
        ⟨none, some AccessMode.readOnly⟩ ⟨[], 0⟩).1 =
      Except.error (Err.nativeError "begin?" 0) ∧
    (OPSQLiteSessionM.transaction ⟨Logger.noopLogger⟩
        (fun _ => UserCallback.mk [] (Except.ok (0 : Nat)))
        ⟨none, some AccessMode.readWrite⟩
        (OPSQLiteSessionM.transaction ⟨Logger.noopLogger⟩
          (fun _ => UserCallback.mk [] (Except.ok (0 : Nat)))
          ⟨none, some AccessMode.readOnly⟩ ⟨[], 0⟩).2).1 =
      Except.error (Err.nativeError "begin?" 1) ∧
    Except.error (α := Nat) (Err.nativeError "begin?" 0) ≠
      Except.error (α := Nat) (Err.nativeError "begin?" 1) := by
  refine ⟨rfl, rfl, ?_⟩
  intro hcontra
  injection hcontra with h
  exact absurd h (by decide)

/-- C8 (amended): the `accessMode` field is never read.  Two configs with
equal `behavior` (so differing at most in `accessMode`) serialize to the
same begin query and make `transaction` submit the identical statement
sequence from any state; each call fails at the `begin?` statement before
invoking the callback — but successive invocations allocate distinct
fresh `Error` objects, so the two calls do not throw the same error
object. -/
theorem accessMode_never_read {α : Type} (s : OPSQLiteSessionM)
    (f : OPSQLiteTransactionM → UserCallback α)
    (c1 c2 : OPSQLiteTransactionConfig) (st : DBState)
    (h : c1.behavior = c2.behavior) :
    beginQuery c1 = beginQuery c2 ∧
    (s.transaction f c1 st).2.trace = (s.transaction f c2 st).2.trace ∧
    (s.transaction f c1 st).1 =
      Except.error (Err.nativeError "begin?" st.nextErr) ∧
    ((s.transaction f c1 st).2.trace.count SessionEvent.callbackInvoked =
      st.trace.count SessionEvent.callbackInvoked) ∧
    (s.transaction f c2 (s.transaction f c1 st).2).1 =
      Except.error (Err.nativeError "begin?" (st.nextErr + 1)) ∧
    Err.nativeError "begin?" st.nextErr ≠
      Err.nativeError "begin?" (st.nextErr + 1) := by
  refine ⟨?_, ?_, rfl, ?_, rfl, ?_⟩
  · simp [beginQuery, beginParam, h]
  · show st.trace ++ [SessionEvent.run "begin?" [beginParam c1]] =
      st.trace ++ [SessionEvent.run "begin?" [beginParam c2]]
    simp [beginParam, h]
  · show (st.trace ++ [SessionEvent.run "begin?" [beginParam c1]]).count
      SessionEvent.callbackInvoked = st.trace.count SessionEvent.callbackInvoked
    simp [List.count_append]
  · intro hcontra
    injection hcontra with _ hid
    omega

/-- Witness for the amended C8 at two concrete configs differing only in
`accessMode`. -/
theorem accessMode_never_read_witness :
    (OPSQLiteTransactionConfig.mk (some TransactionBehavior.deferred)
        (some AccessMode.readOnly)).behavior =
      (OPSQLiteTransactionConfig.mk (some TransactionBehavior.deferred)
        (some AccessMode.readWrite)).behavior ∧
    (beginQuery ⟨some TransactionBehavior.deferred, some AccessMode.readOnly⟩ =
      beginQuery ⟨some TransactionBehavior.deferred, some AccessMode.readWrite⟩ ∧
    (OPSQLiteSessionM.transaction ⟨Logger.noopLogger⟩
        (fun _ => UserCallback.mk ["select 1"] (Except.ok (0 : Nat)))
        ⟨some TransactionBehavior.deferred, some AccessMode.readOnly⟩
        ⟨[], 0⟩).2.trace =
      (OPSQLiteSessionM.transaction ⟨Logger.noopLogger⟩
        (fun _ => UserCallback.mk ["select 1"] (Except.ok (0 : Nat)))
        ⟨some TransactionBehavior.deferred, some AccessMode.readWrite⟩
        ⟨[], 0⟩).2.trace ∧
    (OPSQLiteSessionM.transaction ⟨Logger.noopLogger⟩
        (fun _ => UserCallback.mk ["select 1"] (Except.ok (0 : Nat)))
        ⟨some TransactionBehavior.deferred, some AccessMode.readOnly⟩
        ⟨[], 0⟩).1 = Except.error (Err.nativeError "begin?" 0) ∧
    ((OPSQLiteSessionM.transaction ⟨Logger.noopLogger⟩
        (fun _ => UserCallback.mk ["select 1"] (Except.ok (0 : Nat)))
        ⟨some TransactionBehavior.deferred, some AccessMode.readOnly⟩
        ⟨[], 0⟩).2.trace.count SessionEvent.callbackInvoked =
      ([] : Trace).count SessionEvent.callbackInvoked) ∧
    (OPSQLiteSessionM.transaction ⟨Logger.noopLogger⟩
        (fun _ => UserCallback.mk ["select 1"] (Except.ok (0 : Nat)))
        ⟨some TransactionBehavior.deferred, some AccessMode.readWrite⟩
        (OPSQLiteSessionM.transaction ⟨Logger.noopLogger⟩
          (fun _ => UserCallback.mk ["select 1"] (Except.ok (0 : Nat)))
          ⟨some TransactionBehavior.deferred, some AccessMode.readOnly⟩
          ⟨[], 0⟩).2).1 = Except.error (Err.nativeError "begin?" (0 + 1)) ∧
    Err.nativeError "begin?" 0 ≠ Err.nativeError "begin?" (0 + 1)) :=
  ⟨rfl, accessMode_never_read ⟨Logger.noopLogger⟩
    (fun _ => UserCallback.mk ["select 1"] (Except.ok (0 : Nat)))
    ⟨some TransactionBehavior.deferred, some AccessMode.readOnly⟩
    ⟨some TransactionBehavior.deferred, some AccessMode.readWrite⟩
    ⟨[], 0⟩ rfl⟩

/-- C10: the drizzle factory's logger selection composed with the base
session constructor yields: `DefaultLogger` for `config.logger === true`,
`NoopLogger` for `false` or absent, and the supplied logger object
otherwise. -/
theorem drizzle_logger_selection :
    sessionLoggerOf (drizzleSelectLogger (DrizzleLoggerOption.boolean true)) =
      Logger.defaultLogger ∧
    sessionLoggerOf (drizzleSelectLogger (DrizzleLoggerOption.boolean false)) =
      Logger.noopLogger ∧
    sessionLoggerOf (drizzleSelectLogger DrizzleLoggerOption.undefined) =
      Logger.noopLogger ∧
    ∀ id : Nat,
      sessionLoggerOf (drizzleSelectLogger (DrizzleLoggerOption.logger id)) =
        Logger.user id :=
  ⟨rfl, rfl, rfl, fun _ => rfl⟩

/-- C4: `runLockingTest` classifies the caught error as a lock condition
exactly when the error message, lowercased, contains 'lock'; the result's
`passed` is that classification, and the `error` field is `none` exactly
when `passed` is `true`. -/
theorem runLockingTest_classification (caught : Option String) :
    (lockDetectedOf caught = true ↔
      ∃ s, caught = some s ∧ strIncludes (jsToLower s) "lock" = true) ∧
    (lockingTestResult caught).passed = lockDetectedOf caught ∧
    ((lockingTestResult caught).error = none ↔
      (lockingTestResult caught).passed = true) := by
  refine ⟨?_, rfl, ?_⟩
  · cases caught with
    | none => simp [lockDetectedOf]
    | some s =>
      constructor
      · intro h
        exact ⟨s, rfl, (Bool.and_eq_true _ _ |>.mp h).2⟩
      · rintro ⟨t, ht, hX⟩
        have hts : t = s := by injection ht with h; exact h.symm
        subst hts
        by_cases he : t = ""
        · subst he
          exact absurd hX (by decide)
        · show ((t != "") && strIncludes (jsToLower t) "lock") = true
          simp [hX, bne_iff_ne, he]
  · cases h : lockDetectedOf caught <;>
      simp [lockingTestResult, h]

/-- The demo's `DELETE FROM lists WHERE id = ?` leaves no row carrying
the deleted id. -/
theorem countWithId_deleteWhereId (tbl : List ListsRow) (tid : String) :
    countWithId (deleteWhereId tbl tid) tid = 0 := by
  simp [countWithId, deleteWhereId, List.filter_filter]

/-- Appending one row changes the count for an id by one when the row
carries that id. -/
theorem countWithId_insertRow (tbl : List ListsRow) (r : ListsRow) (tid : String) :
    countWithId (insertRow tbl r) tid =
      countWithId tbl tid + (if r.id = tid then 1 else 0) := by
  by_cases h : r.id = tid <;>
    simp [countWithId, insertRow, List.filter_append, List.filter_cons, h]

/-- The exact row count for the test id after `k` iterations of the
tombstone loop: one row after an even number of completed iterations
(the last operation was an insert, or no iteration ran yet), zero after
an odd number (the last operation was a delete). -/
theorem tombstoneTable_count (testId ownerId : String) (k : Nat) :
    countWithId (tombstoneTable testId ownerId k) testId =
      if k % 2 = 0 then 1 else 0 := by
  induction k with
  | zero => simp [tombstoneTable, countWithId, insertRow, List.filter_cons]
  | succ n ih =>
    rcases Nat.mod_two_eq_zero_or_one n with h | h
    · have hop : tombstoneTable testId ownerId (n + 1) =
          deleteWhereId (tombstoneTable testId ownerId n) testId := by
        simp [tombstoneTable, tombstoneOp, h]
      have h1 : (n + 1) % 2 = 1 := by omega
      rw [hop, countWithId_deleteWhereId, h1]
      simp
    · have hop : tombstoneTable testId ownerId (n + 1) =
          insertRow (tombstoneTable testId ownerId n)
            ⟨testId, some ("Reinserted " ++ toString n), some ownerId⟩ := by
        simp [tombstoneTable, tombstoneOp, h]
      have h0 : (n + 1) % 2 = 0 := by omega
      rw [hop, countWithId_insertRow, ih, h0]
      simp [h]

/-- C6: throughout the tombstone scenario — the initial insert followed by
ten alternating delete/insert operations on the same id — the table never
holds more than one row with that id; in particular the final query for
the id (after all ten iterations) returns at most one row. -/
theorem tombstone_at_most_one_row (testId ownerId : String) :
    (∀ k : Nat, countWithId (tombstoneTable testId ownerId k) testId ≤ 1) ∧
    ((tombstoneTable testId ownerId 10).filter
        (fun r => r.id == testId)).length ≤ 1 := by
  have hall : ∀ k : Nat, countWithId (tombstoneTable testId ownerId k) testId ≤ 1 := by
    intro k
    rw [tombstoneTable_count]
    split <;> omega
  exact ⟨hall, hall 10⟩

/-- With pairwise-distinct ids on both sides, the harness's row-count
proxy (number of rows whose id is among `ids` equals `ids.length`) holds
exactly when every id of `ids` appears among the rows. -/
theorem filter_contains_length_eq_iff (rows : List ListsRow) (ids : List String)
    (hids : ids.Nodup) (hrows : (rows.map fun r => r.id).Nodup) :
    ((rows.filter (fun r => ids.contains r.id)).length = ids.length ↔
      ∀ pid ∈ ids, ∃ r ∈ rows, r.id = pid) := by
  classical
  set F := rows.filter (fun r => ids.contains r.id) with hF
  have hsubl : List.Sublist (F.map fun r => r.id) (rows.map fun r => r.id) :=
    List.Sublist.map _ (List.filter_sublist rows)
  have hFnd : (F.map fun r => r.id).Nodup := List.Nodup.sublist hsubl hrows
  have hFlen : F.length = (F.map fun r => r.id).toFinset.card := by
    rw [List.toFinset_card_of_nodup hFnd, List.length_map]
  have hsubset : (F.map fun r => r.id).toFinset ⊆ ids.toFinset := by
    intro x hx
    rw [List.mem_toFinset] at hx ⊢
    obtain ⟨r, hrF, rfl⟩ := List.mem_map.mp hx
    have hmem := (List.mem_filter.mp hrF).2
    simpa using hmem
  constructor
  · intro hlen pid hpid
    have hcards : ids.toFinset.card ≤ (F.map fun r => r.id).toFinset.card := by
      rw [← hFlen, hlen, List.toFinset_card_of_nodup hids]
    have heq : (F.map fun r => r.id).toFinset = ids.toFinset :=
      Finset.eq_of_subset_of_card_le hsubset hcards
    have hmem : pid ∈ (F.map fun r => r.id).toFinset := by
      rw [heq, List.mem_toFinset]; exact hpid
    rw [List.mem_toFinset] at hmem
    obtain ⟨r, hrF, hrid⟩ := List.mem_map.mp hmem
    exact ⟨r, (List.mem_filter.mp hrF).1, hrid⟩
  · intro hall
    have hsup : ids.toFinset ⊆ (F.map fun r => r.id).toFinset := by
      intro pid hpid
      rw [List.mem_toFinset] at hpid ⊢
      obtain ⟨r, hr, hrid⟩ := hall pid hpid
      refine List.mem_map.mpr ⟨r, ?_, hrid⟩
      refine List.mem_filter.mpr ⟨hr, ?_⟩
      simpa [hrid] using hpid
    have heq := Finset.Subset.antisymm hsubset hsup
    rw [hFlen, heq, List.toFinset_card_of_nodup hids]

/-- C5: with distinct PowerSync ids and distinct row ids (the `lists`
table's primary key), `runHookedConnectionSimultaneousWrites` passes
exactly when the final query has `POWER_SYNC_WRITE_COUNT + 1` rows, the
Drizzle-inserted id is present with its inserted name, and every
PowerSync-inserted id is present. -/
theorem hookedWrites_passed_iff (queryResults : List ListsRow) (drizzleId : String)
    (powersyncIds : List String) (h1 : powersyncIds.Nodup)
    (h2 : (queryResults.map fun r => r.id).Nodup) :
    hookedWritesPassed queryResults drizzleId powersyncIds =
      ((queryResults.length == powersyncIds.length + 1) &&
        queryResults.any (fun r =>
          r.id == drizzleId && r.name == some "Drizzle List (hooked)") &&
        powersyncIds.all (fun pid => queryResults.any (fun r => r.id == pid))) := by
  have key := filter_contains_length_eq_iff queryResults powersyncIds h1 h2
  unfold hookedWritesPassed powersyncItemsCount hasDrizzleItem
  congr 1
  rw [Bool.eq_iff_iff]
  constructor
  · intro h
    rw [beq_iff_eq] at h
    rw [List.all_eq_true]
    intro pid hpid
    obtain ⟨r, hr, hrid⟩ := key.mp h pid hpid
    rw [List.any_eq_true]
    exact ⟨r, hr, by simp [hrid]⟩
  · intro h
    rw [beq_iff_eq]
    apply key.mpr
    intro pid hpid
    rw [List.all_eq_true] at h
    obtain ⟨r, hr, hrid⟩ := List.any_eq_true.mp (h pid hpid)
    exact ⟨r, hr, by simpa using hrid⟩

/-- Witness for C5 at a concrete two-row query result. -/
theorem hookedWrites_passed_iff_witness :
    (["p1"] : List String).Nodup ∧
    (([ListsRow.mk "d" (some "Drizzle List (hooked)") (some "o"),
       ListsRow.mk "p1" (some "PowerSync List 1") (some "o")]).map fun r => r.id).Nodup ∧
    hookedWritesPassed
        [ListsRow.mk "d" (some "Drizzle List (hooked)") (some "o"),
         ListsRow.mk "p1" (some "PowerSync List 1") (some "o")] "d" ["p1"] =
      (([ListsRow.mk "d" (some "Drizzle List (hooked)") (some "o"),
         ListsRow.mk "p1" (some "PowerSync List 1") (some "o")].length ==
          (["p1"] : List String).length + 1) &&
        [ListsRow.mk "d" (some "Drizzle List (hooked)") (some "o"),
         ListsRow.mk "p1" (some "PowerSync List 1") (some "o")].any (fun r =>
          r.id == "d" && r.name == some "Drizzle List (hooked)") &&
        (["p1"] : List String).all (fun pid =>
          [ListsRow.mk "d" (some "Drizzle List (hooked)") (some "o"),
           ListsRow.mk "p1" (some "PowerSync List 1") (some "o")].any
            (fun r => r.id == pid))) :=
  ⟨by decide, by decide,
    hookedWrites_passed_iff
      [ListsRow.mk "d" (some "Drizzle List (hooked)") (some "o"),
       ListsRow.mk "p1" (some "PowerSync List 1") (some "o")] "d" ["p1"]
      (by decide) (by decide)⟩

/-- Membership in the first-occurrence fold: an element is in the
accumulator's extension exactly when it was already there or occurs in
the remaining input. -/
theorem mem_foldl_firstStep (l : List String) (acc : List String) (t : String) :
    (t ∈ l.foldl (fun a x => if x ∈ a then a else a ++ [x]) acc) ↔
      t ∈ acc ∨ t ∈ l := by
  induction l generalizing acc with
  | nil => simp
  | cons x xs ih =>
    rw [List.foldl_cons, ih]
    by_cases hx : x ∈ acc
    · simp only [if_pos hx, List.mem_cons]
      constructor
      · rintro (h | h)
        · exact Or.inl h
        · exact Or.inr (Or.inr h)
      · rintro (h | h)
        · exact Or.inl h
        · rcases h with rfl | h
          · exact Or.inl hx
          · exact Or.inr h
    · simp only [if_neg hx, List.mem_append, List.mem_singleton, List.mem_cons]
      tauto

/-- The first-occurrence fold preserves freedom from duplicates. -/
theorem nodup_foldl_firstStep (l : List String) (acc : List String)
    (hacc : acc.Nodup) :
    (l.foldl (fun a x => if x ∈ a then a else a ++ [x]) acc).Nodup := by
  induction l generalizing acc with
  | nil => simpa
  | cons x xs ih =>
    rw [List.foldl_cons]
    by_cases hx : x ∈ acc
    · rw [if_pos hx]
      exact ih acc hacc
    · rw [if_neg hx]
      refine ih _ ?_
      rw [List.nodup_append]
      refine ⟨hacc, List.nodup_singleton x, ?_⟩
      intro a ha hax
      rw [List.mem_singleton] at hax
      subst hax
      exact hx ha

/-- `firstOccurrences l` contains exactly the elements of `l`. -/
theorem mem_firstOccurrences (l : List String) (t : String) :
    t ∈ firstOccurrences l ↔ t ∈ l := by
  rw [firstOccurrences, mem_foldl_firstStep]
  simp

/-- `firstOccurrences l` has no duplicates. -/
theorem firstOccurrences_nodup (l : List String) : (firstOccurrences l).Nodup :=
  nodup_foldl_firstStep l [] List.nodup_nil

/-- The commit hook's `reduce` computes, key by key in first-occurrence
order, the buffered updates of each table in buffered order. -/
theorem groupedUpdatesOf_spec (buffer : List UpdateNotification) :
    groupedUpdatesOf buffer =
      (firstOccurrences (buffer.map fun u => u.table)).map
        (fun t => (t, buffer.filter (fun u => u.table == t))) := by
  induction buffer using List.reverseRecOn with
  | nil => rfl
  | append_singleton bs u ih =>
    have hL : groupedUpdatesOf (bs ++ [u]) = groupInsert (groupedUpdatesOf bs) u := by
      rw [groupedUpdatesOf, groupedUpdatesOf, List.foldl_append, List.foldl_cons,
        List.foldl_nil]
    have hK : firstOccurrences ((bs ++ [u]).map fun x => x.table) =
        (if u.table ∈ firstOccurrences (bs.map fun x => x.table)
          then firstOccurrences (bs.map fun x => x.table)
          else firstOccurrences (bs.map fun x => x.table) ++ [u.table]) := by
      rw [firstOccurrences, firstOccurrences, List.map_append, List.foldl_append]
      rfl
    rw [hL, ih, hK]
    by_cases hmem : u.table ∈ firstOccurrences (bs.map fun x => x.table)
    · rw [if_pos hmem]
      have hany : (((firstOccurrences (bs.map fun x => x.table)).map
            (fun t => (t, bs.filter (fun x => x.table == t)))).any
          (fun p => p.1 == u.table)) = true := by
        rw [List.any_eq_true]
        exact ⟨(u.table, bs.filter fun x => x.table == u.table),
          List.mem_map.mpr ⟨u.table, hmem, rfl⟩, by simp⟩
      simp only [groupInsert, hany, if_true]
      rw [List.map_map]
      have hfun : ((fun p : String × List UpdateNotification =>
            if p.1 == u.table then (p.1, p.2 ++ [u]) else p) ∘
            (fun t => (t, bs.filter (fun x => x.table == t)))) =
          (fun t => (t, (bs ++ [u]).filter (fun x => x.table == t))) := by
        funext t
        by_cases ht : t = u.table
        · subst ht
          simp [List.filter_append, List.filter_cons]
        · have h1 : (t == u.table) = false := by
            simpa using ht
          have h2 : (u.table == t) = false := by
            simpa using fun h => ht h.symm
          simp [Function.comp, h1, List.filter_append, List.filter_cons, h2]
      rw [hfun]
    · rw [if_neg hmem]
      have hany : (((firstOccurrences (bs.map fun x => x.table)).map
            (fun t => (t, bs.filter (fun x => x.table == t)))).any
          (fun p => p.1 == u.table)) = false := by
        rw [List.any_eq_false]
        rintro p hp
        obtain ⟨t, htK, rfl⟩ := List.mem_map.mp hp
        simp only [beq_iff_eq]
        intro h
        exact hmem (h ▸ htK)
      simp only [groupInsert, hany, Bool.false_eq_true, if_false]
      rw [List.map_append]
      congr 1
      · rw [List.map_eq_map_iff]
        intro t htK
        have ht : t ≠ u.table := fun h => hmem (h ▸ htK)
        have h2 : (u.table == t) = false := by
          simpa using fun h => ht h.symm
        simp [List.filter_append, List.filter_cons, h2]
      · have hnil : bs.filter (fun x => x.table == u.table) = [] := by
          rw [List.filter_eq_nil_iff]
          intro x hx
          simp only [beq_iff_eq]
          intro h
          apply hmem
          rw [mem_firstOccurrences]
          exact List.mem_map.mpr ⟨x, hx, h⟩
        simp [List.filter_append, List.filter_cons, hnil]

/-- C9: the commit hook does nothing on an empty buffer (no notification,
buffer unchanged); on a non-empty buffer it emits exactly one batched
notification whose `rawUpdates` are the buffered updates in buffered
order, whose `tables` lists each table of the buffer exactly once in
first-occurrence order, and whose `groupedUpdates` pair each such table
with its buffered updates in buffered order — and the buffer is cleared. -/
theorem commitHook_batches (u : UpdateNotification) (rest : List UpdateNotification) :
    commitHookRun [] = (none, []) ∧
    commitHookRun (u :: rest) = (some (mkBatchedUpdate (u :: rest)), []) ∧
    (mkBatchedUpdate (u :: rest)).rawUpdates = u :: rest ∧
    (mkBatchedUpdate (u :: rest)).tables =
      firstOccurrences ((u :: rest).map fun x => x.table) ∧
    (mkBatchedUpdate (u :: rest)).tables.Nodup ∧
    (mkBatchedUpdate (u :: rest)).tables.toFinset =
      ((u :: rest).map fun x => x.table).toFinset ∧
    (mkBatchedUpdate (u :: rest)).groupedUpdates =
      (mkBatchedUpdate (u :: rest)).tables.map
        (fun t => (t, (u :: rest).filter (fun x => x.table == t))) := by
  classical
  have htab : (mkBatchedUpdate (u :: rest)).tables =
      firstOccurrences ((u :: rest).map fun x => x.table) := by
    show (groupedUpdatesOf (u :: rest)).map (fun p => p.1) = _
    rw [groupedUpdatesOf_spec, List.map_map]
    have hid : ((fun p : String × List UpdateNotification => p.1) ∘
        (fun t => (t, (u :: rest).filter fun x => x.table == t))) = id := rfl
    rw [hid, List.map_id]
  refine ⟨rfl, rfl, rfl, htab, ?_, ?_, ?_⟩
  · rw [htab]
    exact firstOccurrences_nodup _
  · rw [htab]
    ext t
    simp [List.mem_toFinset, mem_firstOccurrences]
  · rw [htab]
    show groupedUpdatesOf (u :: rest) = _
    exact groupedUpdatesOf_spec _

end DrizzleOpSqlite
